import Mathlib

/-!
Verification of the STUBER_GO mock endpoint server (stub server `part_001`
and the WebSocket-to-TCP relay `websocketbridge.go`).

The Go source is shallowly embedded: machine integers become `Int`/`Nat`,
byte slices become `List Nat` (each element `< 256`), strings become Lean
`String`, fallible operations return `Option`, and each network handler is
modelled as a pure function from the sequence of I/O events it observes
(reads, received frames) to the sequence of writes it performs.
-/

namespace Stuber

/-! ## Go `encoding/hex`

`hex.EncodeToString` renders each byte as two lowercase hex characters;
`hex.DecodeString` accepts `0-9`, `a-f`, `A-F`, fails on odd length or any
invalid character. -/

/-- The lowercase hex digit for a nibble, as in Go's `hextable`. -/
def hexDigitChar (n : Nat) : Char :=
  if n < 10 then Char.ofNat (Char.toNat '0' + n)
  else Char.ofNat (Char.toNat 'a' + (n - 10))

/-- Go `hex.Encode` of one byte: high nibble `b >> 4`, low nibble `b & 0x0f`
(a Go byte is the value mod 256). -/
def hexEncodeByte (b : Nat) : List Char :=
  [hexDigitChar (b % 256 / 16), hexDigitChar (b % 16)]

/-- Go `hex.EncodeToString` over a byte slice. -/
def hexEncodeBytes (bs : List Nat) : List Char :=
  bs.flatMap hexEncodeByte

/-- Go `hex.EncodeToString`, returning a Lean `String`. -/
def hexEncodeString (bs : List Nat) : String :=
  String.mk (hexEncodeBytes bs)

/-- Go `encoding/hex.fromHexChar`: value of one hex character. -/
def fromHexChar (c : Char) : Option Nat :=
  if '0' ≤ c ∧ c ≤ '9' then some (c.toNat - '0'.toNat)
  else if 'a' ≤ c ∧ c ≤ 'f' then some (c.toNat - 'a'.toNat + 10)
  else if 'A' ≤ c ∧ c ≤ 'F' then some (c.toNat - 'A'.toNat + 10)
  else none

/-- Go `hex.Decode` over a character list: consumes pairs of hex digits;
an invalid character or an odd length yields an error (here `none`). -/
def hexDecodeList : List Char → Option (List Nat)
  | [] => some []
  | [_] => none
  | a :: b :: rest =>
    match fromHexChar a, fromHexChar b, hexDecodeList rest with
    | some x, some y, some tl => some ((16 * x + y) :: tl)
    | _, _, _ => none

/-- Go `hex.DecodeString`. -/
def hexDecode (s : String) : Option (List Nat) :=
  hexDecodeList s.data

/-- Go `[]byte(s)`: UTF-8 bytes of one character. -/
def utf8Bytes (c : Char) : List Nat :=
  let n := c.toNat
  if n < 0x80 then [n]
  else if n < 0x800 then [0xC0 + n / 0x40, 0x80 + n % 0x40]
  else if n < 0x10000 then
    [0xE0 + n / 0x1000, 0x80 + n / 0x40 % 0x40, 0x80 + n % 0x40]
  else
    [0xF0 + n / 0x40000, 0x80 + n / 0x1000 % 0x40,
     0x80 + n / 0x40 % 0x40, 0x80 + n % 0x40]

/-- Go `[]byte(s)` over a string. -/
def strBytes (s : String) : List Nat :=
  s.data.flatMap utf8Bytes

/-! ## TCP stub rules (`TCPStub` in the source)

Field names follow the Go struct; the reserved hex-prefix field is named
`ExpectedPfx` here (Go: the "expected hex prefix" string field). -/

structure TCPStub where
  Name : String
  Port : Int
  ResponseMessage : String
  ResponseHex : String
  CloseAfter : Bool
  Delay : Int
  ValidateRequest : Bool
  ExpectedHexPattern : String
  ExpectedPfx : String
  MinLength : Int
  MaxLength : Int
  ErrorResponse : String
  ErrorResponseHex : String
deriving Repr, DecidableEq

/-- Go `(*TCPStubServer).validateRequest`: hex-encodes the received bytes,
counts hex characters, and enforces the positive length bounds, returning
the pass/fail flag and the reason string. -/
def validateRequest (data : List Nat) (stub : TCPStub) : Bool × String :=
  let hexData := hexEncodeString data
  let hexLength : Int := hexData.length
  if stub.MinLength > 0 ∧ hexLength < stub.MinLength then
    (false, "Request too short: " ++ toString hexLength ++
      " hex chars (min: " ++ toString stub.MinLength ++ ")")
  else if stub.MaxLength > 0 ∧ hexLength > stub.MaxLength then
    (false, "Request too long: " ++ toString hexLength ++
      " hex chars (max: " ++ toString stub.MaxLength ++ ")")
  else (true, "OK")

/-- The response bytes `handleConnection` computes: the hex-decoded
`ResponseHex` when non-empty (`none` on a decode error, which aborts the
connection), otherwise the literal bytes of `ResponseMessage`. -/
def responseBytes (stub : TCPStub) : Option (List Nat) :=
  if stub.ResponseHex ≠ "" then hexDecode stub.ResponseHex
  else some (strBytes stub.ResponseMessage)

/-- Go `(*TCPStubServer).handleConnection`, as a function from the
sequence of successful reads on the connection (each a chunk of at most
4096 bytes; the list ends where `reader.Read` first errors) to the pair of
(the chunks written to the connection, the number of successful reads
consumed). The connection is closed on every exit path (`defer`). -/
def handleConnection (stub : TCPStub) (reads : List (List Nat)) :
    List (List Nat) × Nat :=
  match reads with
  | [] => ([], 0)
  | data :: rest =>
    if stub.ValidateRequest && !(validateRequest data stub).1 then
      ([], 1)
    else
      match responseBytes stub with
      | none => ([], 1)
      | some responseData =>
        if stub.CloseAfter then ([responseData], 1)
        else (responseData :: rest.map (fun _ => responseData),
              rest.length + 1)

/-- The spec's phrasing of the length gate: the hex-character length
(twice the byte count) lies within `[MinLength, MaxLength]`, a bound of 0
meaning unbounded on that side. -/
def hexLenOK (stub : TCPStub) (data : List Nat) : Prop :=
  (stub.MinLength = 0 ∨ stub.MinLength ≤ 2 * (data.length : Int)) ∧
  (stub.MaxLength = 0 ∨ 2 * (data.length : Int) ≤ stub.MaxLength)

instance (stub : TCPStub) (data : List Nat) : Decidable (hexLenOK stub data) := by
  unfold hexLenOK; infer_instance

end Stuber

namespace Stuber

theorem hexEncodeBytes_length (bs : List Nat) :
    (hexEncodeBytes bs).length = 2 * bs.length := by
  induction bs with
  | nil => rfl
  | cons b tl ih =>
    simp [hexEncodeBytes, hexEncodeByte] at ih ⊢
    omega

theorem validateRequest_fst (data : List Nat) (stub : TCPStub)
    (hmin : 0 ≤ stub.MinLength) (hmax : 0 ≤ stub.MaxLength) :
    (validateRequest data stub).1 = true ↔ hexLenOK stub data := by
  have hlen : ((hexEncodeString data).length : Int) = 2 * (data.length : Int) := by
    have := hexEncodeBytes_length data
    simp [hexEncodeString, String.length]
    omega
  unfold validateRequest hexLenOK
  simp only [String.length]
  split
  · rename_i h
    simp only [hexEncodeString] at h
    constructor
    · intro hc; exact absurd hc (by simp)
    · intro hc
      exfalso
      rcases hc with ⟨h1, _⟩
      rcases h with ⟨hpos, hlt⟩
      rw [show ((String.mk (hexEncodeBytes data)).data.length : Int)
            = 2 * (data.length : Int) from by
            simpa [hexEncodeString, String.length] using hlen] at hlt
      omega
  · rename_i h1
    split
    · rename_i h2
      simp only [hexEncodeString] at h1 h2
      constructor
      · intro hc; exact absurd hc (by simp)
      · intro hc
        exfalso
        rcases hc with ⟨_, hB⟩
        rcases h2 with ⟨hpos, hgt⟩
        rw [show ((String.mk (hexEncodeBytes data)).data.length : Int)
              = 2 * (data.length : Int) from by
              simpa [hexEncodeString, String.length] using hlen] at hgt
        omega
    · rename_i h2
      simp only [hexEncodeString] at h1 h2
      constructor
      · intro _
        constructor
        · by_cases hm : stub.MinLength = 0
          · exact Or.inl hm
          · refine Or.inr ?_
            have : ¬ (stub.MinLength > 0 ∧
                ((String.mk (hexEncodeBytes data)).data.length : Int) < stub.MinLength) := h1
            rw [show ((String.mk (hexEncodeBytes data)).data.length : Int)
                  = 2 * (data.length : Int) from by
                  simpa [hexEncodeString, String.length] using hlen] at this
            omega
        · by_cases hm : stub.MaxLength = 0
          · exact Or.inl hm
          · refine Or.inr ?_
            have : ¬ (stub.MaxLength > 0 ∧
                ((String.mk (hexEncodeBytes data)).data.length : Int) > stub.MaxLength) := h2
            rw [show ((String.mk (hexEncodeBytes data)).data.length : Int)
                  = 2 * (data.length : Int) from by
                  simpa [hexEncodeString, String.length] using hlen] at this
            omega
      · intro _; rfl

end Stuber

namespace Stuber

/-- The concrete rule of the spec's scenario:
`{port: 9000, response_hex: "0102", close_after: true, validate_request: true,
min_length: 4, max_length: 8}`. -/
def sampleStub : TCPStub :=
  { Name := "scenario", Port := 9000, ResponseMessage := "",
    ResponseHex := "0102", CloseAfter := true, Delay := 0,
    ValidateRequest := true, ExpectedHexPattern := "", ExpectedPfx := "",
    MinLength := 4, MaxLength := 8, ErrorResponse := "",
    ErrorResponseHex := "" }

/-- The same rule with `close_after: false`. -/
def sampleStubKeepOpen : TCPStub := { sampleStub with CloseAfter := false }

end Stuber


namespace Stuber

/-- C1: with validation enabled, a request whose hex-character length lies
within the `[MinLength, MaxLength]` bounds (0 = unbounded) gets exactly the
configured response payload written; a request outside the bounds gets the
connection closed with zero bytes written. -/
theorem validation_gates_response (stub : TCPStub) (data : List Nat)
    (rest : List (List Nat)) (resp : List Nat)
    (hv : stub.ValidateRequest = true)
    (hmin : 0 ≤ stub.MinLength) (hmax : 0 ≤ stub.MaxLength)
    (hresp : responseBytes stub = some resp) :
    (hexLenOK stub data → (handleConnection stub [data]).1 = [resp]) ∧
    (¬ hexLenOK stub data → handleConnection stub (data :: rest) = ([], 1)) := by
  constructor
  · intro hok
    have hval : (validateRequest data stub).1 = true :=
      (validateRequest_fst data stub hmin hmax).mpr hok
    simp only [handleConnection, hv, hval, Bool.not_true, Bool.and_false,
      Bool.false_eq_true, if_false, hresp]
    split <;> rfl
  · intro hbad
    have hval : (validateRequest data stub).1 = false := by
      have := (validateRequest_fst data stub hmin hmax)
      rcases hb : (validateRequest data stub).1 with _ | _
      · rfl
      · exact absurd (this.mp hb) hbad
    simp [handleConnection, hv, hval]

/-- C1 witness: the spec's concrete scenario rule; a 2-byte request (4 hex
chars, within `[4,8]`) receives `0x01 0x02`; a 1-byte request (2 hex chars)
receives zero bytes. -/
theorem validation_gates_response_witness :
    (handleConnection sampleStub [[0xAA, 0xBB]]).1 = [[1, 2]] ∧
    handleConnection sampleStub [[0x01], [0x02]] = ([], 1) :=
  ⟨(validation_gates_response sampleStub [0xAA, 0xBB] [] [1, 2]
      rfl (by decide) (by decide) rfl).1 (by decide),
   (validation_gates_response sampleStub [0x01] [[0x02]] [1, 2]
      rfl (by decide) (by decide) rfl).2 (by decide)⟩

/-- C2: with `close_after = false`, a connection delivering `N = rest.length + 1`
successful reads gets the same canned response bytes written after every one
of them, and validation is applied only to the first read: the result does
not depend on the contents of the later reads at all. -/
theorem keep_open_replays_response (stub : TCPStub) (data : List Nat)
    (rest : List (List Nat)) (resp : List Nat)
    (hca : stub.CloseAfter = false)
    (hresp : responseBytes stub = some resp)
    (hval : stub.ValidateRequest = true → (validateRequest data stub).1 = true) :
    handleConnection stub (data :: rest) =
      (List.replicate (rest.length + 1) resp, rest.length + 1) := by
  have hcond : (stub.ValidateRequest && !(validateRequest data stub).1) = false := by
    rcases hb : stub.ValidateRequest with _ | _
    · rfl
    · simp [hval hb]
  simp [handleConnection, hcond, hresp, hca, List.replicate_succ,
    List.map_const']

/-- C2 witness: three reads on the keep-open scenario rule each get `0x01 0x02`. -/
theorem keep_open_replays_response_witness :
    handleConnection sampleStubKeepOpen [[0xAA, 0xBB], [0xCC], []] =
      ([[1, 2], [1, 2], [1, 2]], 3) :=
  keep_open_replays_response sampleStubKeepOpen [0xAA, 0xBB] [[0xCC], []]
    [1, 2] rfl rfl (fun _ => by decide)

/-- C3: with `close_after = true`, exactly one exchange happens: one response
write, one read consumed, and any further client writes are never read. -/
theorem close_after_single_exchange (stub : TCPStub) (data : List Nat)
    (rest : List (List Nat)) (resp : List Nat)
    (hca : stub.CloseAfter = true)
    (hresp : responseBytes stub = some resp)
    (hval : stub.ValidateRequest = true → (validateRequest data stub).1 = true) :
    handleConnection stub (data :: rest) = ([resp], 1) := by
  have hcond : (stub.ValidateRequest && !(validateRequest data stub).1) = false := by
    rcases hb : stub.ValidateRequest with _ | _
    · rfl
    · simp [hval hb]
  simp [handleConnection, hcond, hresp, hca]

/-- C3 witness: the scenario rule answers the first read and ignores the rest. -/
theorem close_after_single_exchange_witness :
    handleConnection sampleStub [[0xAA, 0xBB], [0xCC], [0xDD]] = ([[1, 2]], 1) :=
  close_after_single_exchange sampleStub [0xAA, 0xBB] [[0xCC], [0xDD]]
    [1, 2] rfl rfl (fun _ => by decide)

/-- C9: the validation outcome (pass/fail flag and reason string) is
identical for any two rules that differ only in the reserved
expected-prefix and expected-hex-pattern fields: those fields are never
evaluated. -/
theorem reserved_fields_never_evaluated (stub : TCPStub) (p q : String)
    (data : List Nat) :
    validateRequest data
        { stub with ExpectedPfx := p, ExpectedHexPattern := q } =
      validateRequest data stub := rfl

end Stuber

namespace Stuber

/-! ## The WebSocket-to-TCP relay (`websocketbridge.go`)

A WebSocket frame is either binary (raw bytes) or text (a Lean `String`);
each directional loop of `handleWebSocket` is modelled as a function from
the frames/chunks it successfully reads (the list ends at the first read
error) to what it forwards. -/

inductive WSFrame where
  | binary (data : List Nat)
  | text (s : String)
deriving Repr, DecidableEq

/-- The WebSocket→TCP goroutine of `handleWebSocket`: a binary frame is
written to the TCP leg verbatim; a text frame is hex-decoded and the bytes
written; a text frame that fails decoding is not forwarded — one error
text frame is written back to the WebSocket peer and the loop continues.
Result: (chunks written to the TCP leg, number of error frames sent back). -/
def wsToTcp : List WSFrame → List (List Nat) × Nat
  | [] => ([], 0)
  | WSFrame.binary b :: rest =>
    let r := wsToTcp rest
    (b :: r.1, r.2)
  | WSFrame.text s :: rest =>
    match hexDecode s with
    | some bs =>
      let r := wsToTcp rest
      (bs :: r.1, r.2)
    | none =>
      let r := wsToTcp rest
      (r.1, r.2 + 1)

/-- The TCP→WebSocket goroutine of `handleWebSocket`: each chunk read from
the TCP leg (4096-byte buffer) is hex-encoded and sent as one text frame. -/
def tcpToWs (chunks : List (List Nat)) : List String :=
  chunks.map hexEncodeString

/-- Observable trace of one relay session. -/
structure SessionTrace where
  setupErrorFrames : Nat
  loopsStarted : Nat
  tcpWrites : List (List Nat)
  wsTextFrames : List String
deriving Repr, DecidableEq

/-- `(*Bridge).handleWebSocket` after a successful upgrade: if the dial of
the TCP backend fails, one error text frame is written to the WebSocket
side and the handler returns before starting either relay loop; otherwise
both directional loops run (their interleaving is irrelevant to the
per-direction outputs modelled here). -/
def handleWebSocket (dialOk : Bool) (wsFrames : List WSFrame)
    (tcpChunks : List (List Nat)) : SessionTrace :=
  if !dialOk then
    { setupErrorFrames := 1, loopsStarted := 0, tcpWrites := [],
      wsTextFrames := [] }
  else
    { setupErrorFrames := 0, loopsStarted := 2,
      tcpWrites := (wsToTcp wsFrames).1,
      wsTextFrames := tcpToWs tcpChunks }

end Stuber

namespace Stuber

/-- C4: a binary frame is forwarded to the TCP leg verbatim; a text frame
that decodes as hex is forwarded as its decoded bytes; the text frame
`"f00d"` produces exactly the two bytes `0xf0, 0x0d`. -/
theorem frames_forwarded_decoded (b : List Nat) (s : String) (bs : List Nat)
    (rest : List WSFrame) (h : hexDecode s = some bs) :
    wsToTcp (WSFrame.binary b :: rest) =
      (b :: (wsToTcp rest).1, (wsToTcp rest).2) ∧
    wsToTcp (WSFrame.text s :: rest) =
      (bs :: (wsToTcp rest).1, (wsToTcp rest).2) ∧
    wsToTcp [WSFrame.text "f00d"] = ([[0xf0, 0x0d]], 0) := by
  refine ⟨rfl, ?_, by rfl⟩
  simp [wsToTcp, h]

/-- C4 witness at the spec's concrete frame `"f00d"`. -/
theorem frames_forwarded_decoded_witness :
    wsToTcp (WSFrame.binary [1, 2] :: []) = ([[1, 2]], 0) ∧
    wsToTcp (WSFrame.text "f00d" :: []) = ([[0xf0, 0x0d]], 0) ∧
    wsToTcp [WSFrame.text "f00d"] = ([[0xf0, 0x0d]], 0) :=
  frames_forwarded_decoded [1, 2] "f00d" [0xf0, 0x0d] [] (by rfl)

/-- C5: a text frame that fails hex decoding forwards zero bytes, sends
exactly one error text frame back, and the loop continues reading the
remaining frames exactly as it would without the bad frame. -/
theorem invalid_hex_skipped_not_fatal (s : String) (rest : List WSFrame)
    (h : hexDecode s = none) :
    wsToTcp (WSFrame.text s :: rest) =
      ((wsToTcp rest).1, (wsToTcp rest).2 + 1) := by
  simp [wsToTcp, h]

/-- C5 witness: the spec's concrete frame `"zz"`, followed by a valid frame
that is still relayed. -/
theorem invalid_hex_skipped_not_fatal_witness :
    wsToTcp (WSFrame.text "zz" :: [WSFrame.text "f00d"]) =
      ([[0xf0, 0x0d]], 1) :=
  invalid_hex_skipped_not_fatal "zz" [WSFrame.text "f00d"] (by rfl)

/-- C6: for every byte sequence, hex-decoding is left inverse to
hex-encoding: the text frame the TCP→WS direction would emit for a chunk,
fed back through the WS→TCP direction, forwards exactly that chunk. -/
theorem hex_round_trip (b : List Nat) (h : ∀ x ∈ b, x < 256) :
    hexDecode (hexEncodeString b) = some b ∧
    wsToTcp [WSFrame.text (hexEncodeString b)] = ([b], 0) := by
  have key : hexDecodeList (hexEncodeBytes b) = some b := by
    induction b with
    | nil => rfl
    | cons x tl ih =>
      have hx : x < 256 := h x (List.mem_cons_self x tl)
      have htl : hexDecodeList (hexEncodeBytes tl) = some tl :=
        ih (fun y hy => h y (List.mem_cons_of_mem x hy))
      have hdigit : ∀ n, n < 16 → fromHexChar (hexDigitChar n) = some n := by
        decide
      have hhi : fromHexChar (hexDigitChar (x % 256 / 16)) = some (x % 256 / 16) :=
        hdigit _ (by omega)
      have hlo : fromHexChar (hexDigitChar (x % 16)) = some (x % 16) :=
        hdigit _ (Nat.mod_lt _ (by norm_num))
      have hsplit : 16 * (x % 256 / 16) + x % 16 = x := by omega
      have expand : hexEncodeBytes (x :: tl) =
          hexDigitChar (x % 256 / 16) :: hexDigitChar (x % 16) ::
            hexEncodeBytes tl := rfl
      rw [expand]
      simp only [hexDecodeList, hhi, hlo, htl]
      simp [hsplit]
  refine ⟨?_, ?_⟩
  · simpa [hexDecode, hexEncodeString] using key
  · simp [wsToTcp, hexDecode, hexEncodeString, key]

/-- C6 witness at a concrete chunk. -/
theorem hex_round_trip_witness :
    hexDecode (hexEncodeString [0, 0xf0, 0x0d, 255]) = some [0, 0xf0, 0x0d, 255] ∧
    wsToTcp [WSFrame.text (hexEncodeString [0, 0xf0, 0x0d, 255])] =
      ([[0, 0xf0, 0x0d, 255]], 0) :=
  hex_round_trip [0, 0xf0, 0x0d, 255] (by decide)

/-- C7: when the dial of the TCP backend fails, the session ends having
sent exactly one error text frame on the WebSocket side, started zero
relay loops, and relayed no bytes in either direction. -/
theorem dial_failure_one_error_no_loops (wsFrames : List WSFrame)
    (tcpChunks : List (List Nat)) :
    handleWebSocket false wsFrames tcpChunks =
      { setupErrorFrames := 1, loopsStarted := 0, tcpWrites := [],
        wsTextFrames := [] } := rfl

end Stuber

namespace Stuber

/-! ## HTTP stub matching (`HTTPStubServer` in the source)

JSON values (`interface{}` from `json.Unmarshal`) are modelled by `JValue`;
an unmarshalled `map[string]interface{}` is a field list with unique keys,
listed in the key order Go's `fmt` would render (sorted), so that the
default `%v` rendering is a function of the list. JSON numbers unmarshal
to `float64`; they are modelled at integer values, where `%v` renders the
plain digits exactly as Go does (`float64(1)` renders as `1`). -/

inductive JValue where
  | null
  | boolean (b : Bool)
  | num (n : Int)
  | str (s : String)
  | arr (xs : List JValue)
  | obj (fields : List (String × JValue))

mutual

/-- Go `fmt.Sprintf("%v", x)` on an unmarshalled JSON value: `nil` renders
as `<nil>`, booleans as `true`/`false`, numbers as digits, strings as their
contents, slices as space-separated values in `[...]`, maps as `map[k:v ...]`. -/
def goFormat : JValue → String
  | JValue.null => "<nil>"
  | JValue.boolean true => "true"
  | JValue.boolean false => "false"
  | JValue.num n => toString n
  | JValue.str s => s
  | JValue.arr xs => "[" ++ goFormatList xs ++ "]"
  | JValue.obj fs => "map[" ++ goFormatFields fs ++ "]"

def goFormatList : List JValue → String
  | [] => ""
  | [x] => goFormat x
  | x :: y :: xs => goFormat x ++ " " ++ goFormatList (y :: xs)

def goFormatFields : List (String × JValue) → String
  | [] => ""
  | [(k, v)] => k ++ ":" ++ goFormat v
  | (k, v) :: f :: fs => k ++ ":" ++ goFormat v ++ " " ++ goFormatFields (f :: fs)

end

/-- Go `strings.Split` on a one-character separator, over characters. -/
def splitChar (sep : Char) : List Char → List (List Char)
  | [] => [[]]
  | c :: cs =>
    let r := splitChar sep cs
    if c = sep then [] :: r
    else
      match r with
      | [] => [[c]]
      | g :: gs => (c :: g) :: gs

/-- Go `strings.Split(path, ".")`. -/
def splitOnDot (s : String) : List String :=
  (splitChar '.' s.data).map String.mk

/-- Go map indexing `m[key]` yields the zero value (`nil`) when absent. -/
def lookupField (fs : List (String × JValue)) (k : String) : Option JValue :=
  (fs.find? (fun kv => kv.1 == k)).map (fun kv => kv.2)

/-- The key-walking loop of `jsonFieldMatches`: steps through the
dot-separated keys, indexing maps (a missing key yields `nil`), and gives
up (`none`, Go `return false`) when the current value is not a map while
keys remain. -/
def matchLoop : List String → JValue → Option JValue
  | [], current => some current
  | k :: ks, current =>
    match current with
    | JValue.obj m => matchLoop ks ((lookupField m k).getD JValue.null)
    | _ => none

/-- Go `jsonFieldMatches`: splits the path on `.`, walks the keys, then
compares the `%v` renderings of the reached value and the expected value. -/
def jsonFieldMatches (data : List (String × JValue)) (path : String)
    (expected : JValue) : Bool :=
  match matchLoop (splitOnDot path) (JValue.obj data) with
  | none => false
  | some current => goFormat current == goFormat expected

/-- Modelled from the spec claim's wording: "the value found at the
dot-separated path", traversal failing on any non-object intermediate. -/
def specPathValue : JValue → List String → Option JValue
  | v, [] => some v
  | JValue.obj fs, k :: ks =>
    specPathValue ((lookupField fs k).getD JValue.null) ks
  | _, _ :: _ => none

structure HTTPResponse where
  Status : Int
  Headers : List (String × String)
  Body : String
  Delay : Int
deriving Repr, DecidableEq

structure HTTPStub where
  Name : String
  Method : String
  Path : String
  Headers : List (String × String)
  BodyContains : String
  BodyJSON : List (String × JValue)
  Response : HTTPResponse

/-- An incoming request as `matchRequest` observes it. `headerGet` models
`r.Header.Get` (the net/http canonicalizing lookup, an external
collaborator); `BodyParsed` models `json.Unmarshal` of `Body` into a
`map[string]interface{}` (`none` on parse failure). -/
structure HTTPRequest where
  Method : String
  Path : String
  headerGet : String → String
  Body : String
  BodyParsed : Option (List (String × JValue))

/-- ASCII model of Go `strings.EqualFold` (HTTP methods are ASCII). -/
def toLowerASCII (c : Char) : Char :=
  if 'A' ≤ c ∧ c ≤ 'Z' then Char.ofNat (c.toNat + 32) else c

def eqFold (s t : String) : Bool :=
  s.data.map toLowerASCII == t.data.map toLowerASCII

/-- Go `strings.Contains`: `sub` occurs contiguously inside `s`. -/
def containsStr (s sub : String) : Bool :=
  decide (sub.data <:+: s.data)

/-- Go `(*HTTPStubServer).matchRequest`: method (case-insensitive), exact
path, every configured header exact, then — only when a body condition is
configured — the substring check and/or the per-field JSON checks. -/
def matchRequest (r : HTTPRequest) (stub : HTTPStub) : Bool :=
  if !eqFold stub.Method r.Method then false
  else if stub.Path != r.Path then false
  else if !(stub.Headers.all fun kv => r.headerGet kv.1 == kv.2) then false
  else if stub.BodyContains != "" || !stub.BodyJSON.isEmpty then
    if stub.BodyContains != "" && !containsStr r.Body stub.BodyContains then
      false
    else if !stub.BodyJSON.isEmpty then
      match r.BodyParsed with
      | none => false
      | some requestJSON =>
        stub.BodyJSON.all fun kv => jsonFieldMatches requestJSON kv.1 kv.2
    else true
  else true

/-- The fixed 404 reply of `ServeHTTP` when no stub matches. -/
def notFoundResponse : HTTPResponse :=
  { Status := 404, Headers := [],
    Body := "\x7b\"error\": \"No stub matched\"\x7d", Delay := 0 }

/-- Go `(*HTTPStubServer).ServeHTTP`: scan the stubs in declaration order,
answer with the first full match's response, else the fixed 404. -/
def serveResponse : List HTTPStub → HTTPRequest → HTTPResponse
  | [], _ => notFoundResponse
  | stub :: rest, r =>
    if matchRequest r stub then stub.Response else serveResponse rest r

end Stuber

namespace Stuber

theorem matchLoop_eq_specPathValue (ks : List String) (v : JValue) :
    matchLoop ks v = specPathValue v ks := by
  induction ks generalizing v with
  | nil => cases v <;> rfl
  | cons k ks ih => cases v <;> simp [matchLoop, specPathValue, ih]

theorem matchRequest_iff (r : HTTPRequest) (stub : HTTPStub) :
    matchRequest r stub = true ↔
      (eqFold stub.Method r.Method = true ∧
       stub.Path = r.Path ∧
       (∀ kv ∈ stub.Headers, r.headerGet kv.1 = kv.2) ∧
       (stub.BodyContains ≠ "" → containsStr r.Body stub.BodyContains = true) ∧
       (stub.BodyJSON ≠ [] → ∃ js, r.BodyParsed = some js ∧
          ∀ kv ∈ stub.BodyJSON, jsonFieldMatches js kv.1 kv.2 = true)) := by
  unfold matchRequest
  by_cases h1 : eqFold stub.Method r.Method = true
  case neg =>
    simp only [Bool.not_eq_true] at h1
    simp [h1]
  by_cases h2 : stub.Path = r.Path
  case neg =>
    simp [h2]
  by_cases h3 : ∀ kv ∈ stub.Headers, r.headerGet kv.1 = kv.2
  case neg =>
    have hall : (stub.Headers.all fun kv => r.headerGet kv.1 == kv.2) = false := by
      rcases hb : stub.Headers.all fun kv => r.headerGet kv.1 == kv.2 with _ | _
      · rfl
      · simp only [List.all_eq_true, beq_iff_eq] at hb
        exact absurd hb h3
    simp only [h1, h2, hall]
    constructor
    · intro hc
      exact absurd hc (by simp)
    · intro hc
      exact absurd hc.2.2.1 h3
  have h3n : ∀ (a b : String), (a, b) ∈ stub.Headers → r.headerGet a = b :=
    fun a b hab => h3 (a, b) hab
  have hall : (stub.Headers.all fun kv => r.headerGet kv.1 == kv.2) = true := by
    simp only [List.all_eq_true, beq_iff_eq]
    exact h3
  by_cases h4 : stub.BodyContains = ""
  · by_cases h5 : stub.BodyJSON = []
    · simp [h1, h2, hall, h4, h5]
      exact h3n
    · rcases hj : r.BodyParsed with _ | js
      · simp [h1, h2, h3n, hall, h4, h5, hj]
      · simp [h1, h2, hall, h4, h5, hj, List.all_eq_true]
        exact fun _ => h3n
  · by_cases h6 : containsStr r.Body stub.BodyContains = true
    · by_cases h5 : stub.BodyJSON = []
      · simp [h1, h2, hall, h4, h5, h6]
        exact h3n
      · rcases hj : r.BodyParsed with _ | js
        · simp [h1, h2, h3n, hall, h4, h5, h6, hj]
        · simp [h1, h2, hall, h4, h5, h6, hj, List.all_eq_true]
          exact fun _ => h3n
    · simp only [Bool.not_eq_true] at h6
      simp [h1, h2, h3n, hall, h4, h6]

theorem serveResponse_no_match (stubs : List HTTPStub) (r : HTTPRequest) :
    (∀ s' ∈ stubs, matchRequest r s' = false) →
    serveResponse stubs r = notFoundResponse := by
  induction stubs with
  | nil => intro _; rfl
  | cons a tl ih =>
    intro h
    have ha := h a (List.mem_cons_self a tl)
    simp only [serveResponse, ha, Bool.false_eq_true, if_false]
    exact ih (fun s' hs' => h s' (List.mem_cons_of_mem a hs'))

theorem serveResponse_first_match (pre post : List HTTPStub) (s : HTTPStub)
    (r : HTTPRequest) :
    (∀ s' ∈ pre, matchRequest r s' = false) → matchRequest r s = true →
    serveResponse (pre ++ s :: post) r = s.Response := by
  induction pre with
  | nil =>
    intro _ hm
    simp [serveResponse, hm]
  | cons a tl ih =>
    intro hpre hm
    have ha := hpre a (List.mem_cons_self a tl)
    simp only [List.cons_append, serveResponse, ha, Bool.false_eq_true, if_false]
    exact ih (fun s' hs' => hpre s' (List.mem_cons_of_mem a hs')) hm

/-- C8: `ServeHTTP` scans the stubs in declaration order and serves the
response of the first full match — where a full match is case-insensitive
method equality, exact path equality, every specified header exact, and
the configured body-substring / per-field JSON conditions — and serves the
fixed 404 JSON error body when no stub matches. -/
theorem declaration_order_first_match (pre post : List HTTPStub)
    (s : HTTPStub) (r : HTTPRequest) :
    ((∀ s' ∈ pre, matchRequest r s' = false) → matchRequest r s = true →
        serveResponse (pre ++ s :: post) r = s.Response) ∧
    ((∀ s' ∈ pre, matchRequest r s' = false) →
        serveResponse pre r = notFoundResponse) ∧
    (matchRequest r s = true ↔
      (eqFold s.Method r.Method = true ∧
       s.Path = r.Path ∧
       (∀ kv ∈ s.Headers, r.headerGet kv.1 = kv.2) ∧
       (s.BodyContains ≠ "" → containsStr r.Body s.BodyContains = true) ∧
       (s.BodyJSON ≠ [] → ∃ js, r.BodyParsed = some js ∧
          ∀ kv ∈ s.BodyJSON, jsonFieldMatches js kv.1 kv.2 = true))) :=
  ⟨serveResponse_first_match pre post s r,
   serveResponse_no_match pre r,
   matchRequest_iff r s⟩

/-- The hardcoded health-check stub from `main`. -/
def sampleHTTPStub : HTTPStub :=
  { Name := "health-check", Method := "GET", Path := "/health",
    Headers := [], BodyContains := "", BodyJSON := [],
    Response := { Status := 200,
                  Headers := [("Content-Type", "application/json")],
                  Body := "\x7b\"status\": \"ok\"\x7d", Delay := 0 } }

/-- A lowercase-method request for the health-check stub. -/
def sampleHTTPRequest : HTTPRequest :=
  { Method := "get", Path := "/health", headerGet := fun _ => "",
    Body := "", BodyParsed := none }

/-- C8 witness: the health-check stub answers a lowercase-method request;
an empty stub table answers 404. -/
theorem declaration_order_first_match_witness :
    serveResponse [sampleHTTPStub] sampleHTTPRequest = sampleHTTPStub.Response ∧
    serveResponse [] sampleHTTPRequest = notFoundResponse :=
  ⟨(declaration_order_first_match [] [] sampleHTTPStub sampleHTTPRequest).1
      (by simp) (by rfl),
   (declaration_order_first_match [] [] sampleHTTPStub sampleHTTPRequest).2.1
      (by simp)⟩

/-- C10: the per-field JSON check passes exactly when the `%v` renderings
of the value at the dot-separated path and of the expected value coincide;
hence the number `1` matches the string `"1"`, and traversal through a
non-object intermediate value fails the check. -/
theorem json_field_render_equality (data : List (String × JValue))
    (path : String) (expected : JValue) :
    (jsonFieldMatches data path expected = true ↔
      ∃ v, specPathValue (JValue.obj data) (splitOnDot path) = some v ∧
        goFormat v = goFormat expected) ∧
    jsonFieldMatches [("a", JValue.num 1)] "a" (JValue.str "1") = true ∧
    jsonFieldMatches [("a", JValue.str "x")] "a.b" (JValue.num 1) = false := by
  refine ⟨?_, by rfl, by rfl⟩
  unfold jsonFieldMatches
  rw [matchLoop_eq_specPathValue]
  rcases h : specPathValue (JValue.obj data) (splitOnDot path) with _ | v
  · simp
  · simp [beq_iff_eq]

end Stuber
